import Mathlib

/-!
Shallow embedding of the remotely-controlled audio playback engine of the
Messagerie repository (the gamemaster socket client, `src/unnamed/part_000`,
and the ElevenLabs TTS helper, `src/unnamed/part_001`).

Modelling conventions:
* JS `Map` objects become association lists (`List (κ × ν)`) with JS `Map`
  semantics: `mapSet` replaces an existing entry in place, `mapDel` removes it.
* `HTMLAudioElement` objects live in an explicit heap (`List Audio`); the maps
  and the TTS slot store heap indices, so a torn-down element can still be
  inspected after it has been replaced in a map, exactly as a still-referenced
  JS object can.
* `audio.play()` is modelled as synchronously entering the non-paused state
  (the promise-rejection branch only logs and is state-free in the source).
* Volumes and media times are rationals: the handlers only copy such values
  around, never compute with them, so no floating-point behaviour is involved.
* `window` and `document` exist (browser environment), so `typeof window`
  guards are taken as passing.
* The three one-shot gesture listeners are collapsed into one `gestureListeners`
  flag: attached / not attached.
-/

namespace Messagerie

/-- JS-`Map`-style lookup on an association list. -/
def mapGet {κ ν : Type} [DecidableEq κ] (k : κ) : List (κ × ν) → Option ν
  | [] => none
  | (k', v') :: rest => if k' = k then some v' else mapGet k rest

/-- JS `Map.set`: replace the entry for `k` in place if present, else append. -/
def mapSet {κ ν : Type} [DecidableEq κ] (k : κ) (v : ν) : List (κ × ν) → List (κ × ν)
  | [] => [(k, v)]
  | (k', v') :: rest => if k' = k then (k, v) :: rest else (k', v') :: mapSet k v rest

/-- JS `Map.delete`: remove the entry for `k` (the first one; keys are unique). -/
def mapDel {κ ν : Type} [DecidableEq κ] (k : κ) : List (κ × ν) → List (κ × ν)
  | [] => []
  | (k', v') :: rest => if k' = k then rest else (k', v') :: mapDel k rest

/-- The keys of an association list. -/
def mapKeys {κ ν : Type} (l : List (κ × ν)) : List κ := l.map Prod.fst

/-- The values of an association list. -/
def mapVals {κ ν : Type} (l : List (κ × ν)) : List ν := l.map Prod.snd

/-- Model of an `HTMLAudioElement` as the engine observes and mutates it. -/
structure Audio where
  /-- Source URL; set to `""` on release. -/
  src : String
  volume : ℚ
  loop : Bool
  paused : Bool
  currentTime : ℚ
  /-- Media duration metadata (0 while unknown, matching a falsy `duration`). -/
  duration : ℚ
  /-- Whether `routeThroughMaster` actually connected it (context existed). -/
  routed : Bool
deriving DecidableEq, Repr

/-- `new Audio(url)` before the handler mutates it further. -/
def newAudio (url : String) : Audio :=
  { src := url, volume := 1, loop := false, paused := true
    currentTime := 0, duration := 0, routed := false }

/-- `audioConfig` (`AudioConfig` interface in the source). -/
structure AudioConfig where
  enabled : Bool
  autoUnlock : Bool
  debug : Bool
deriving DecidableEq, Repr

/-- A `Partial<AudioConfig>` argument: absent fields are `none`. -/
structure PartialAudioConfig where
  enabled : Option Bool := none
  autoUnlock : Option Bool := none
  debug : Option Bool := none
deriving DecidableEq, Repr

/-- Events the engine emits on the socket (the audio-relevant ones). -/
inductive OutEvent where
  | registerAudioPlayer
  | presetProgress (presetIdx : Nat) (currentTime duration : ℚ) (ended : Bool)
deriving DecidableEq, Repr

/-- The module-level mutable audio state of `part_000`. -/
structure EngineState where
  audioConfig : AudioConfig
  audioUnlocked : Bool
  /-- `audioCtx !== null` (and `masterGain`, created together). -/
  audioCtxExists : Bool
  /-- `masterGain.gain.value` (meaningful only when the context exists). -/
  masterGainValue : ℚ
  masterVolume : ℚ
  iaVolume : ℚ
  /-- All allocated audio elements; an element id is its index here. -/
  heap : List Audio
  ambientAudios : List (String × Nat)
  presetAudios : List (Nat × Nat)
  ttsAudio : Option Nat
  /-- `progressInterval !== null`. -/
  progressRunning : Bool
  /-- Whether the one-shot gesture unlock listeners are attached. -/
  gestureListeners : Bool
deriving DecidableEq, Repr

def BACKOFFICE_URL : String := "http://192.168.10.1:3000"

/-- Release an element: `audio.pause(); audio.src = ""`. -/
def released (a : Audio) : Audio := { a with paused := true, src := "" }

/-- Pause-and-clear the element at index `eid` in the heap, if allocated. -/
def releaseAt (heap : List Audio) (eid : Nat) : List Audio :=
  match heap[eid]? with
  | some a => heap.set eid (released a)
  | none => heap

/-- Release every element whose id appears in `eids`. -/
def releaseAll (heap : List Audio) (eids : List Nat) : List Audio :=
  eids.foldl releaseAt heap

/-- `audio.volume = v` as a function on elements. -/
def setVol (v : ℚ) (a : Audio) : Audio := { a with volume := v }

/-- Set `volume := v` on the element at `eid`, if allocated. -/
def setVolAt (v : ℚ) (heap : List Audio) (eid : Nat) : List Audio :=
  match heap[eid]? with
  | some a => heap.set eid (setVol v a)
  | none => heap

/-- Set `volume := v` on every element whose id appears in `eids`. -/
def setVolAll (heap : List Audio) (v : ℚ) (eids : List Nat) : List Audio :=
  eids.foldl (setVolAt v) heap

/-- `initAudioContext`: lazily create the context and master gain; the gain's
initial value is the currently stored `masterVolume`. -/
def initAudioContext (s : EngineState) : EngineState :=
  if s.audioCtxExists then s
  else { s with audioCtxExists := true, masterGainValue := s.masterVolume }

/-- `startProgressReporting`: idempotent start of the 250 ms reporter. -/
def startProgressReporting (s : EngineState) : EngineState :=
  if s.progressRunning then s else { s with progressRunning := true }

/-- `stopProgressReporting`. -/
def stopProgressReporting (s : EngineState) : EngineState :=
  { s with progressRunning := false }

/-- `addUnlockListeners` (window exists; re-adding the same one-shot
listeners is absorbed by `addEventListener`). -/
def addUnlockListeners (s : EngineState) : EngineState :=
  { s with gestureListeners := true }

/-- `removeUnlockListeners`. -/
def removeUnlockListeners (s : EngineState) : EngineState :=
  { s with gestureListeners := false }

/-- `doUnlockAudio`: the unlock gate. No-op when already unlocked or audio is
disabled; otherwise initializes the routing graph, plays the silent primer
(state-free in the model), flips the flag, announces `register-audio-player`,
starts progress reporting and detaches the gesture watch. -/
def doUnlockAudio (s : EngineState) : EngineState × List OutEvent :=
  if s.audioUnlocked || !s.audioConfig.enabled then (s, [])
  else
    let s1 := initAudioContext s
    let s2 := { s1 with audioUnlocked := true }
    let s3 := startProgressReporting s2
    (removeUnlockListeners s3, [OutEvent.registerAudioPlayer])

/-- `stopAllAudio`: release every ambient and preset element, clear both maps,
and tear down the TTS clip. -/
def stopAllAudio (s : EngineState) : EngineState :=
  let h1 := releaseAll s.heap (mapVals s.ambientAudios)
  let h2 := releaseAll h1 (mapVals s.presetAudios)
  let h3 :=
    match s.ttsAudio with
    | some eid => releaseAt h2 eid
    | none => h2
  { s with heap := h3, ambientAudios := [], presetAudios := [], ttsAudio := none }

/-- The ambient element built by `play-ambient`: looping, at the requested
volume (default 0.5), routed through the master gain when the context exists,
and playing. -/
def ambientElem (s : EngineState) (file : String) (volume : Option ℚ) : Audio :=
  { newAudio (BACKOFFICE_URL ++ "/sounds/" ++ file) with
      loop := true
      volume := volume.getD (1 / 2)
      routed := s.audioCtxExists
      paused := false }

/-- The heap after `play-ambient` has torn down any prior instance of the id. -/
def ambientTeardown (s : EngineState) (soundId : String) : List Audio :=
  match mapGet soundId s.ambientAudios with
  | some eid => releaseAt s.heap eid
  | none => s.heap

/-- The preset element built by `play-preset` for a fresh slot: volume = IA
level, routed when the context exists, playing from position 0. -/
def presetElem (s : EngineState) (file : String) : Audio :=
  { newAudio (BACKOFFICE_URL ++ "/presets/" ++ file) with
      volume := s.iaVolume
      routed := s.audioCtxExists
      paused := false }

/-- The TTS element built by `play-tts`: the decoded blob URL is modelled as
`"blob:" ++ mime ++ ":" ++ payload`; volume = IA level, routed, playing. -/
def ttsElem (s : EngineState) (audioBase64 : String) (mimeType : Option String) : Audio :=
  { newAudio ("blob:" ++ mimeType.getD "audio/mpeg" ++ ":" ++ audioBase64) with
      volume := s.iaVolume
      routed := s.audioCtxExists
      paused := false }

/-- The heap after `play-tts` has torn down any in-flight clip. -/
def ttsTeardown (s : EngineState) : List Audio :=
  match s.ttsAudio with
  | some eid => releaseAt s.heap eid
  | none => s.heap

/-- The `audio:play-ambient` handler. Gated by unlock+enabled. Tears down any
existing instance under the id, then creates a looping element at the resolved
URL, applies the requested volume (default 0.5), routes it and plays. -/
def playAmbient (s : EngineState) (soundId file : String) (volume : Option ℚ) :
    EngineState × List OutEvent :=
  if !s.audioUnlocked || !s.audioConfig.enabled then (s, [])
  else
    let h1 := ambientTeardown s soundId
    ({ s with heap := h1 ++ [ambientElem s file volume],
              ambientAudios := mapSet soundId h1.length s.ambientAudios }, [])

/-- The `audio:stop-ambient` handler: release and remove if present. -/
def stopAmbient (s : EngineState) (soundId : String) : EngineState × List OutEvent :=
  match mapGet soundId s.ambientAudios with
  | some eid =>
      ({ s with heap := releaseAt s.heap eid,
                ambientAudios := mapDel soundId s.ambientAudios }, [])
  | none => (s, [])

/-- The `audio:volume-ambient` handler: retune the live instance if present. -/
def setAmbientVolume (s : EngineState) (soundId : String) (volume : ℚ) :
    EngineState × List OutEvent :=
  match mapGet soundId s.ambientAudios with
  | some eid => ({ s with heap := setVolAt volume s.heap eid }, [])
  | none => (s, [])

/-- The `audio:play-preset` handler. Gated by unlock+enabled. If a live
instance with a truthy `src` exists at the slot it is resumed (volume set to
the current IA level, playback continues from its current position, the file
argument is ignored); otherwise a fresh element is created at the resolved URL
with volume = IA level, routed, given its end-of-clip handler, and played. -/
def playPreset (s : EngineState) (presetIdx : Nat) (file : String) :
    EngineState × List OutEvent :=
  if !s.audioUnlocked || !s.audioConfig.enabled then (s, [])
  else
    let create : EngineState × List OutEvent :=
      ({ s with heap := s.heap ++ [presetElem s file],
                presetAudios := mapSet presetIdx s.heap.length s.presetAudios }, [])
    match mapGet presetIdx s.presetAudios with
    | some eid =>
        match s.heap[eid]? with
        | some a =>
            if a.src ≠ "" then
              ({ s with heap := s.heap.set eid { a with volume := s.iaVolume, paused := false } },
               [])
            else create
        | none => create
    | none => create

/-- The `onended` closure installed by `playPreset` on a fresh element: emit a
terminal progress report (current time = total duration, `ended: true`), then
drop the slot from the live map. -/
def presetEnded (s : EngineState) (presetIdx eid : Nat) : EngineState × List OutEvent :=
  let d := match s.heap[eid]? with | some a => a.duration | none => 0
  ({ s with presetAudios := mapDel presetIdx s.presetAudios },
   [OutEvent.presetProgress presetIdx d d true])

/-- The `audio:pause-preset` handler. -/
def pausePreset (s : EngineState) (presetIdx : Nat) : EngineState × List OutEvent :=
  match mapGet presetIdx s.presetAudios with
  | some eid =>
      match s.heap[eid]? with
      | some a => ({ s with heap := s.heap.set eid { a with paused := true } }, [])
      | none => (s, [])
  | none => (s, [])

/-- The `audio:seek-preset` handler. -/
def seekPreset (s : EngineState) (presetIdx : Nat) (time : ℚ) : EngineState × List OutEvent :=
  match mapGet presetIdx s.presetAudios with
  | some eid =>
      match s.heap[eid]? with
      | some a => ({ s with heap := s.heap.set eid { a with currentTime := time } }, [])
      | none => (s, [])
  | none => (s, [])

/-- The `audio:stop-preset` handler: release and remove if present. -/
def stopPreset (s : EngineState) (presetIdx : Nat) : EngineState × List OutEvent :=
  match mapGet presetIdx s.presetAudios with
  | some eid =>
      ({ s with heap := releaseAt s.heap eid,
                presetAudios := mapDel presetIdx s.presetAudios }, [])
  | none => (s, [])

/-- The `audio:play-tts` handler. Gated by unlock+enabled. Tears down any
in-flight clip, decodes the payload into a blob URL (modelled abstractly as
`"blob:" ++ payload`), creates the element at IA volume, routes and plays it. -/
def playTTS (s : EngineState) (audioBase64 : String) (mimeType : Option String) :
    EngineState × List OutEvent :=
  if !s.audioUnlocked || !s.audioConfig.enabled then (s, [])
  else
    let h1 := ttsTeardown s
    ({ s with heap := h1 ++ [ttsElem s audioBase64 mimeType], ttsAudio := some h1.length }, [])

/-- The `onended` closure of the TTS element: revoke the URL and clear the
singleton. -/
def ttsEnded (s : EngineState) : EngineState × List OutEvent :=
  ({ s with ttsAudio := none }, [])

/-- The `audio:volume-ia` handler: store the level and push it to every live
preset element and to the TTS element if present. -/
def setIaVolume (s : EngineState) (v : ℚ) : EngineState × List OutEvent :=
  let h1 := setVolAll s.heap v (mapVals s.presetAudios)
  let h2 :=
    match s.ttsAudio with
    | some eid => setVolAt v h1 eid
    | none => h1
  ({ s with iaVolume := v, heap := h2 }, [])

/-- The `audio:master-volume` handler: store the level and write it into the
shared gain if the routing graph exists. -/
def setMasterVolume (s : EngineState) (v : ℚ) : EngineState × List OutEvent :=
  ({ s with masterVolume := v
            masterGainValue := if s.audioCtxExists then v else s.masterGainValue }, [])

/-- The `audio:stop-all` handler. -/
def stopAllOp (s : EngineState) : EngineState × List OutEvent :=
  (stopAllAudio s, [])

/-- One tick of the progress reporter: for every live, non-paused preset with a
truthy duration, emit `{presetIdx, currentTime, duration}`. -/
def progressTick (s : EngineState) : EngineState × List OutEvent :=
  (s, s.presetAudios.filterMap fun p =>
    match s.heap[p.2]? with
    | some a =>
        if !a.paused && a.duration ≠ 0 then
          some (OutEvent.presetProgress p.1 a.currentTime a.duration false)
        else none
    | none => none)

/-- `gamemaster.configureAudio`: merge the partial config; attach the gesture
watch when the partial has a truthy `enabled` and its `autoUnlock` is not
`false`; when the partial sets `enabled` to `false`, stop all audio and the
progress reporter. -/
def configureAudio (s : EngineState) (p : PartialAudioConfig) : EngineState × List OutEvent :=
  let merged : AudioConfig :=
    { enabled := p.enabled.getD s.audioConfig.enabled
      autoUnlock := p.autoUnlock.getD s.audioConfig.autoUnlock
      debug := p.debug.getD s.audioConfig.debug }
  let s1 := { s with audioConfig := merged }
  let s2 :=
    if p.enabled = some true ∧ p.autoUnlock ≠ some false then addUnlockListeners s1 else s1
  let s3 :=
    if p.enabled = some false then stopProgressReporting (stopAllAudio s2) else s2
  (s3, [])

/-- `gamemaster.unlockAudio`: returns whether audio is unlocked afterwards. -/
def unlockAudio (s : EngineState) : EngineState × List OutEvent × Bool :=
  if s.audioUnlocked then (s, [], true)
  else if !s.audioConfig.enabled then (s, [], false)
  else
    let (s', ev) := doUnlockAudio s
    (s', ev, s'.audioUnlocked)

/-- `gamemaster.disableAudio`. -/
def disableAudio (s : EngineState) : EngineState × List OutEvent :=
  (stopProgressReporting (stopAllAudio { s with audioConfig := { s.audioConfig with enabled := false } }), [])

/-- `gamemaster.enableAudio`. -/
def enableAudio (s : EngineState) : EngineState × List OutEvent :=
  let s1 := { s with audioConfig := { s.audioConfig with enabled := true } }
  if s1.audioUnlocked then
    (startProgressReporting s1, [OutEvent.registerAudioPlayer])
  else (s1, [])

/-- The socket `connect` handler's audio part: re-announce presence when
already unlocked and enabled. -/
def onConnect (s : EngineState) : EngineState × List OutEvent :=
  if s.audioUnlocked && s.audioConfig.enabled then (s, [OutEvent.registerAudioPlayer])
  else (s, [])

/-- A user gesture hitting one of the one-shot unlock listeners. -/
def gestureFired (s : EngineState) : EngineState × List OutEvent :=
  doUnlockAudio s

/-- The state after module load: default config, nothing unlocked or created,
gesture listeners attached by the auto-init IIFE (since `autoUnlock` defaults
to `true`). -/
def initState : EngineState :=
  { audioConfig := { enabled := true, autoUnlock := true, debug := false }
    audioUnlocked := false
    audioCtxExists := false
    masterGainValue := 1
    masterVolume := 1
    iaVolume := 1
    heap := []
    ambientAudios := []
    presetAudios := []
    ttsAudio := none
    progressRunning := false
    gestureListeners := true }

/-- Media metadata / playback progress arriving from the platform on an
allocated element: the environment may move its position and reveal its
duration. -/
def envMediaUpdate (s : EngineState) (eid : Nat) (t d : ℚ) : EngineState :=
  match s.heap[eid]? with
  | some a => { s with heap := s.heap.set eid { a with currentTime := t, duration := d } }
  | none => s

/-- One atomic event of the engine: an inbound command handler, a gamemaster
API call, a timer tick, a media-end callback, a user gesture, or a platform
media update. `Step s ev s'` relates the pre-state, the emitted events and the
post-state. -/
inductive Step : EngineState → List OutEvent → EngineState → Prop where
  | playAmbient (s : EngineState) (id file : String) (v : Option ℚ) :
      Step s (playAmbient s id file v).2 (playAmbient s id file v).1
  | stopAmbient (s : EngineState) (id : String) :
      Step s (stopAmbient s id).2 (stopAmbient s id).1
  | setAmbientVolume (s : EngineState) (id : String) (v : ℚ) :
      Step s (setAmbientVolume s id v).2 (setAmbientVolume s id v).1
  | playPreset (s : EngineState) (idx : Nat) (file : String) :
      Step s (playPreset s idx file).2 (playPreset s idx file).1
  | pausePreset (s : EngineState) (idx : Nat) :
      Step s (pausePreset s idx).2 (pausePreset s idx).1
  | seekPreset (s : EngineState) (idx : Nat) (t : ℚ) :
      Step s (seekPreset s idx t).2 (seekPreset s idx t).1
  | stopPreset (s : EngineState) (idx : Nat) :
      Step s (stopPreset s idx).2 (stopPreset s idx).1
  | presetEnded (s : EngineState) (idx eid : Nat)
      (h : mapGet idx s.presetAudios = some eid) :
      Step s (presetEnded s idx eid).2 (presetEnded s idx eid).1
  | playTTS (s : EngineState) (b64 : String) (mt : Option String) :
      Step s (playTTS s b64 mt).2 (playTTS s b64 mt).1
  | ttsEnded (s : EngineState) (h : s.ttsAudio ≠ none) :
      Step s (ttsEnded s).2 (ttsEnded s).1
  | setIaVolume (s : EngineState) (v : ℚ) :
      Step s (setIaVolume s v).2 (setIaVolume s v).1
  | setMasterVolume (s : EngineState) (v : ℚ) :
      Step s (setMasterVolume s v).2 (setMasterVolume s v).1
  | stopAll (s : EngineState) :
      Step s (stopAllOp s).2 (stopAllOp s).1
  | progressTick (s : EngineState) (h : s.progressRunning = true) :
      Step s (progressTick s).2 (progressTick s).1
  | configureAudio (s : EngineState) (p : PartialAudioConfig) :
      Step s (configureAudio s p).2 (configureAudio s p).1
  | unlockAudio (s : EngineState) :
      Step s (unlockAudio s).2.1 (unlockAudio s).1
  | disableAudio (s : EngineState) :
      Step s (disableAudio s).2 (disableAudio s).1
  | enableAudio (s : EngineState) :
      Step s (enableAudio s).2 (enableAudio s).1
  | onConnect (s : EngineState) :
      Step s (onConnect s).2 (onConnect s).1
  | gestureFired (s : EngineState) (h : s.gestureListeners = true) :
      Step s (gestureFired s).2 (gestureFired s).1
  | envMediaUpdate (s : EngineState) (eid : Nat) (t d : ℚ) :
      Step s [] (envMediaUpdate s eid t d)

/-- States reachable from module load by any sequence of steps. -/
inductive Reachable : EngineState → Prop where
  | init : Reachable initState
  | step {s s' : EngineState} {ev : List OutEvent} :
      Reachable s → Step s ev s' → Reachable s'

/-- The same state with the two gate flags overridden: used to express that an
operation neither reads nor writes the unlock gate. -/
def withGate (s : EngineState) (u e : Bool) : EngineState :=
  { s with audioUnlocked := u, audioConfig := { s.audioConfig with enabled := e } }

/-- The ambient map holds at most one live instance per id. -/
def AmbientUnique (s : EngineState) : Prop :=
  (mapKeys s.ambientAudios).Nodup

end Messagerie

namespace ElevenLabs

/-- A voice record as returned by the `/voices` endpoint. -/
structure Voice where
  voice_id : String
  name : String
deriving DecidableEq, Repr

/-- Result of one `getVoiceIdByName` call: the returned value, the cache
contents afterwards, and whether a network request was issued. -/
structure LookupResult where
  result : Option String
  cache : Option String
  requested : Bool
deriving DecidableEq, Repr

/-- `String.prototype.toLowerCase()` as the helper uses it (case folding per
character), written structurally over the character list so that proofs can
evaluate it on concrete strings. -/
def lowerStr (s : String) : String := String.mk (s.data.map Char.toLower)

/-- `data.voices.find(v => v.name.toLowerCase() === voiceName.toLowerCase())`. -/
def findVoice (voices : List Voice) (voiceName : String) : Option Voice :=
  voices.find? fun vc => lowerStr vc.name = lowerStr voiceName

/-- `getVoiceIdByName` from the ElevenLabs helper. `cache` is the module-level
`cachedVoiceId`; `fetchResult` is the environment's answer to the `/voices`
request (`none` models a failed fetch / thrown error, swallowed by the
`catch`). The JS truthiness test `if (cachedVoiceId)` passes only for a
non-null, non-empty cached string. -/
def getVoiceIdByName (voiceName : String) (cache : Option String)
    (fetchResult : Option (List Voice)) : LookupResult :=
  match cache with
  | some id =>
      if id ≠ "" then { result := some id, cache := some id, requested := false }
      else getVoiceIdByNameFetch voiceName cache fetchResult
  | none => getVoiceIdByNameFetch voiceName cache fetchResult
where
  /-- The body after the cache check: issue the request and search by name. -/
  getVoiceIdByNameFetch (voiceName : String) (cache : Option String)
      (fetchResult : Option (List Voice)) : LookupResult :=
    match fetchResult with
    | none => { result := none, cache := cache, requested := true }
    | some voices =>
        match findVoice voices voiceName with
        | some vc => { result := some vc.voice_id, cache := some vc.voice_id, requested := true }
        | none => { result := none, cache := cache, requested := true }

end ElevenLabs

namespace SocketRegistry

/-- The socket.io listener registry restricted to what the dispatcher uses:
an ordered list of (event name, handler id); `on` appends, `off` removes every
handler of the name. -/
abbrev Registry : Type := List (String × Nat)

/-- `socket.on(name, h)`: append a subscription. -/
def socketOn (name : String) (h : Nat) (r : Registry) : Registry := r ++ [(name, h)]

/-- `socket.off(name)`: drop all subscriptions for the name. -/
def socketOff (name : String) (r : Registry) : Registry :=
  List.filter (fun p => p.1 ≠ name) r

/-- How many handlers fire for one delivered event of this name. -/
def countHandlers (name : String) (r : Registry) : Nat :=
  (List.filter (fun p => p.1 = name) r).length

/-- The eleven `socket.on("audio:...")` registrations performed by
`setupAudioEventListeners`, with fresh handler ids from `base`; the source
calls `socket.on` directly, with no preceding `socket.off`. -/
def setupAudioEventListeners (r : Registry) (base : Nat) : Registry :=
  socketOn "audio:stop-all" (base + 10)
    (socketOn "audio:master-volume" (base + 9)
      (socketOn "audio:volume-ia" (base + 8)
        (socketOn "audio:play-tts" (base + 7)
          (socketOn "audio:stop-preset" (base + 6)
            (socketOn "audio:seek-preset" (base + 5)
              (socketOn "audio:pause-preset" (base + 4)
                (socketOn "audio:play-preset" (base + 3)
                  (socketOn "audio:volume-ambient" (base + 2)
                    (socketOn "audio:stop-ambient" (base + 1)
                      (socketOn "audio:play-ambient" base r))))))))))

/-- `gamemaster.onCommand`: `socket.off("command")` then `socket.on`. -/
def onCommand (r : Registry) (h : Nat) : Registry :=
  socketOn "command" h (socketOff "command" r)

end SocketRegistry

namespace Messagerie

/-- The engine right after a successful user-gesture unlock of the freshly
loaded module. -/
def unlockedInit : EngineState := (doUnlockAudio initState).1

/-- The spec scenario prefix: `play-preset(0,"a.mp3")`, `pause-preset(0)`,
`seek-preset(0, 30)` from the unlocked initial state. -/
def seekScenario : EngineState :=
  (seekPreset (pausePreset (playPreset unlockedInit 0 "a.mp3").1 0).1 0 30).1

/-- A compact concrete state with one live ambient ("bg" at element 0), one
live preset (slot 0 at element 1) and a TTS clip (element 2), unlocked and
enabled. -/
def sampleState : EngineState :=
  { audioConfig := { enabled := true, autoUnlock := true, debug := false }
    audioUnlocked := true
    audioCtxExists := true
    masterGainValue := 1
    masterVolume := 1
    iaVolume := 1
    heap :=
      [ { src := BACKOFFICE_URL ++ "/sounds/bg.mp3", volume := 2, loop := true
          paused := false, currentTime := 5, duration := 60, routed := true }
      , { src := BACKOFFICE_URL ++ "/presets/p.mp3", volume := 1, loop := false
          paused := false, currentTime := 12, duration := 120, routed := true }
      , { src := "blob:audio/mpeg:xyz", volume := 1, loop := false
          paused := false, currentTime := 0, duration := 3, routed := true } ]
    ambientAudios := [("bg", 0)]
    presetAudios := [(0, 1)]
    ttsAudio := some 2
    progressRunning := true
    gestureListeners := false }

/-- `sampleState` with the unlock gate closed again (as if it never opened). -/
def sampleLocked : EngineState := { sampleState with audioUnlocked := false }

end Messagerie

/-! ### Association-list lemmas -/

namespace Messagerie

theorem mapGet_mapSet_self {κ ν : Type} [DecidableEq κ] (k : κ) (v : ν)
    (l : List (κ × ν)) : mapGet k (mapSet k v l) = some v := by
  induction l with
  | nil => simp [mapGet, mapSet]
  | cons p rest ih =>
    obtain ⟨k0, v0⟩ := p
    by_cases h : k0 = k
    · simp [mapGet, mapSet, h]
    · simp [mapGet, mapSet, h, ih]

theorem mapGet_mapSet_ne {κ ν : Type} [DecidableEq κ] {k k' : κ} (v : ν)
    (l : List (κ × ν)) (h : k' ≠ k) : mapGet k' (mapSet k v l) = mapGet k' l := by
  have h' : k ≠ k' := Ne.symm h
  induction l with
  | nil => simp [mapGet, mapSet, h']
  | cons p rest ih =>
    obtain ⟨k0, v0⟩ := p
    by_cases hp : k0 = k
    · subst hp
      simp [mapGet, mapSet, h']
    · by_cases hp' : k0 = k'
      · subst hp'
        simp [mapGet, mapSet, hp, h']
      · simp [mapGet, mapSet, hp, hp', ih]

theorem mapGet_eq_none_of_not_mem {κ ν : Type} [DecidableEq κ] {k : κ}
    {l : List (κ × ν)} (h : k ∉ mapKeys l) : mapGet k l = none := by
  induction l with
  | nil => simp [mapGet]
  | cons p rest ih =>
    obtain ⟨k0, v0⟩ := p
    simp only [mapKeys, List.map_cons, List.mem_cons] at h
    push_neg at h
    have h1 : ¬k0 = k := fun he => h.1 he.symm
    simp [mapGet, h1, ih (by simpa [mapKeys] using h.2)]

theorem mem_mapKeys_of_mapGet {κ ν : Type} [DecidableEq κ] {k : κ} {v : ν}
    {l : List (κ × ν)} (h : mapGet k l = some v) : k ∈ mapKeys l := by
  induction l with
  | nil => simp [mapGet] at h
  | cons p rest ih =>
    obtain ⟨k0, v0⟩ := p
    by_cases hp : k0 = k
    · simp [mapKeys, hp]
    · simp only [mapGet, if_neg hp] at h
      simp only [mapKeys, List.map_cons, List.mem_cons]
      exact Or.inr (by simpa [mapKeys] using ih h)

theorem mapKeys_mapSet_of_mem {κ ν : Type} [DecidableEq κ] {k : κ} (v : ν)
    {l : List (κ × ν)} (h : k ∈ mapKeys l) : mapKeys (mapSet k v l) = mapKeys l := by
  induction l with
  | nil => simp [mapKeys] at h
  | cons p rest ih =>
    obtain ⟨k0, v0⟩ := p
    by_cases hp : k0 = k
    · simp [mapSet, hp, mapKeys]
    · simp only [mapKeys, List.map_cons, List.mem_cons] at h
      rcases h with h | h
      · exact absurd h.symm hp
      · have ihr : mapKeys (mapSet k v rest) = mapKeys rest :=
          ih (by simpa [mapKeys] using h)
        simp only [mapKeys] at ihr
        simp [mapSet, hp, mapKeys, ihr]

theorem mapKeys_mapSet_of_not_mem {κ ν : Type} [DecidableEq κ] {k : κ} (v : ν)
    {l : List (κ × ν)} (h : k ∉ mapKeys l) :
    mapKeys (mapSet k v l) = mapKeys l ++ [k] := by
  induction l with
  | nil => simp [mapSet, mapKeys]
  | cons p rest ih =>
    obtain ⟨k0, v0⟩ := p
    simp only [mapKeys, List.map_cons, List.mem_cons] at h
    push_neg at h
    have h1 : ¬k0 = k := fun he => h.1 he.symm
    have ihr : mapKeys (mapSet k v rest) = mapKeys rest ++ [k] :=
      ih (by simpa [mapKeys] using h.2)
    simp only [mapKeys] at ihr
    simp [mapSet, h1, mapKeys, ihr]

theorem nodup_mapKeys_mapSet {κ ν : Type} [DecidableEq κ] (k : κ) (v : ν)
    {l : List (κ × ν)} (h : (mapKeys l).Nodup) : (mapKeys (mapSet k v l)).Nodup := by
  by_cases hm : k ∈ mapKeys l
  · rw [mapKeys_mapSet_of_mem v hm]; exact h
  · rw [mapKeys_mapSet_of_not_mem v hm]
    simpa [List.nodup_append] using ⟨h, hm⟩

theorem mapKeys_mapDel_sublist {κ ν : Type} [DecidableEq κ] (k : κ)
    (l : List (κ × ν)) : (mapKeys (mapDel k l)).Sublist (mapKeys l) := by
  induction l with
  | nil => simp [mapDel, mapKeys]
  | cons p rest ih =>
    obtain ⟨k0, v0⟩ := p
    by_cases hp : k0 = k
    · simp only [mapDel, if_pos hp, mapKeys, List.map_cons]
      exact List.sublist_cons_of_sublist _ (List.Sublist.refl _)
    · simp only [mapDel, if_neg hp, mapKeys, List.map_cons]
      exact List.Sublist.cons₂ _ ih

theorem nodup_mapKeys_mapDel {κ ν : Type} [DecidableEq κ] (k : κ)
    {l : List (κ × ν)} (h : (mapKeys l).Nodup) : (mapKeys (mapDel k l)).Nodup :=
  (mapKeys_mapDel_sublist k l).nodup h

theorem mapGet_mapDel_self {κ ν : Type} [DecidableEq κ] (k : κ)
    {l : List (κ × ν)} (h : (mapKeys l).Nodup) : mapGet k (mapDel k l) = none := by
  induction l with
  | nil => simp [mapDel, mapGet]
  | cons p rest ih =>
    obtain ⟨k0, v0⟩ := p
    simp only [mapKeys, List.map_cons, List.nodup_cons] at h
    by_cases hp : k0 = k
    · simp only [mapDel, if_pos hp]
      exact mapGet_eq_none_of_not_mem (by simpa [mapKeys, ← hp] using h.1)
    · simp [mapDel, hp, mapGet, ih (by simpa [mapKeys] using h.2)]

theorem count_mapKeys_eq_one {κ ν : Type} [DecidableEq κ] {k : κ} {v : ν}
    {l : List (κ × ν)} (hn : (mapKeys l).Nodup) (hg : mapGet k l = some v) :
    (mapKeys l).count k = 1 :=
  List.count_eq_one_of_mem hn (mem_mapKeys_of_mapGet hg)

end Messagerie

/-! ### Heap lemmas -/

namespace Messagerie

theorem released_released (a : Audio) : released (released a) = released a := rfl

theorem setVol_setVol (v : ℚ) (a : Audio) : setVol v (setVol v a) = setVol v a := rfl

theorem length_releaseAt (heap : List Audio) (eid : Nat) :
    (releaseAt heap eid).length = heap.length := by
  unfold releaseAt
  split <;> simp

theorem getElem?_releaseAt_self (heap : List Audio) (eid : Nat) :
    (releaseAt heap eid)[eid]? = (heap[eid]?).map released := by
  unfold releaseAt
  split
  case h_1 a ha =>
    have hl : eid < heap.length := by
      by_contra hge
      rw [List.getElem?_eq_none (by omega)] at ha
      exact Option.noConfusion ha
    rw [List.getElem?_set_self hl, ha]
    rfl
  case h_2 ha => rw [ha]; rfl

theorem getElem?_releaseAt_ne (heap : List Audio) {eid e : Nat} (h : e ≠ eid) :
    (releaseAt heap eid)[e]? = heap[e]? := by
  unfold releaseAt
  split
  · exact List.getElem?_set_ne (Ne.symm h)
  · rfl

theorem getElem?_releaseAll (heap : List Audio) (eids : List Nat) (e : Nat) :
    (releaseAll heap eids)[e]? =
      if e ∈ eids then (heap[e]?).map released else heap[e]? := by
  induction eids generalizing heap with
  | nil => simp [releaseAll]
  | cons x xs ih =>
    have hfold : releaseAll heap (x :: xs) = releaseAll (releaseAt heap x) xs := rfl
    rw [hfold, ih]
    by_cases hx : e = x
    · subst hx
      by_cases hm : e ∈ xs
      · simp [hm, getElem?_releaseAt_self, Option.map_map, Function.comp_def,
          released_released]
      · simp [hm, getElem?_releaseAt_self]
    · by_cases hm : e ∈ xs
      · simp [hm, hx, getElem?_releaseAt_ne heap hx]
      · simp [hm, hx, getElem?_releaseAt_ne heap hx]

theorem length_releaseAll (heap : List Audio) (eids : List Nat) :
    (releaseAll heap eids).length = heap.length := by
  induction eids generalizing heap with
  | nil => rfl
  | cons x xs ih =>
    have hfold : releaseAll heap (x :: xs) = releaseAll (releaseAt heap x) xs := rfl
    rw [hfold, ih, length_releaseAt]

theorem length_setVolAt (v : ℚ) (heap : List Audio) (eid : Nat) :
    (setVolAt v heap eid).length = heap.length := by
  unfold setVolAt
  split <;> simp

theorem getElem?_setVolAt_self (v : ℚ) (heap : List Audio) (eid : Nat) :
    (setVolAt v heap eid)[eid]? = (heap[eid]?).map (setVol v) := by
  unfold setVolAt
  split
  case h_1 a ha =>
    have hl : eid < heap.length := by
      by_contra hge
      rw [List.getElem?_eq_none (by omega)] at ha
      exact Option.noConfusion ha
    rw [List.getElem?_set_self hl, ha]
    rfl
  case h_2 ha => rw [ha]; rfl

theorem getElem?_setVolAt_ne (v : ℚ) (heap : List Audio) {eid e : Nat} (h : e ≠ eid) :
    (setVolAt v heap eid)[e]? = heap[e]? := by
  unfold setVolAt
  split
  · exact List.getElem?_set_ne (Ne.symm h)
  · rfl

theorem getElem?_setVolAll (heap : List Audio) (v : ℚ) (eids : List Nat) (e : Nat) :
    (setVolAll heap v eids)[e]? =
      if e ∈ eids then (heap[e]?).map (setVol v) else heap[e]? := by
  induction eids generalizing heap with
  | nil => simp [setVolAll]
  | cons x xs ih =>
    have hfold : setVolAll heap v (x :: xs) = setVolAll (setVolAt v heap x) v xs := rfl
    rw [hfold, ih]
    by_cases hx : e = x
    · subst hx
      by_cases hm : e ∈ xs
      · simp [hm, getElem?_setVolAt_self, Option.map_map, Function.comp_def, setVol_setVol]
      · simp [hm, getElem?_setVolAt_self]
    · by_cases hm : e ∈ xs
      · simp [hm, hx, getElem?_setVolAt_ne v heap hx]
      · simp [hm, hx, getElem?_setVolAt_ne v heap hx]

end Messagerie

/-! ### Step-invariant lemmas -/

namespace Messagerie

theorem doUnlockAudio_of_unlocked {s : EngineState} (h : s.audioUnlocked = true) :
    doUnlockAudio s = (s, []) := by
  simp [doUnlockAudio, h]

theorem step_unlocked_mono {s s' : EngineState} {ev : List OutEvent}
    (h : Step s ev s') (hu : s.audioUnlocked = true) : s'.audioUnlocked = true := by
  cases h with
  | playAmbient id file v => unfold playAmbient; (repeat' split) <;> exact hu
  | stopAmbient id => unfold stopAmbient; (repeat' split) <;> exact hu
  | setAmbientVolume id v => unfold setAmbientVolume; (repeat' split) <;> exact hu
  | playPreset idx file => unfold playPreset; (repeat' split) <;> exact hu
  | pausePreset idx => unfold pausePreset; (repeat' split) <;> exact hu
  | seekPreset idx t => unfold seekPreset; (repeat' split) <;> exact hu
  | stopPreset idx => unfold stopPreset; (repeat' split) <;> exact hu
  | presetEnded idx eid h => exact hu
  | playTTS b64 mt => unfold playTTS; (repeat' split) <;> exact hu
  | ttsEnded h => exact hu
  | setIaVolume v => exact hu
  | setMasterVolume v => exact hu
  | stopAll => exact hu
  | progressTick h => exact hu
  | configureAudio p => unfold configureAudio; (repeat' split) <;> exact hu
  | unlockAudio => simp [unlockAudio, hu]
  | disableAudio => exact hu
  | enableAudio => unfold enableAudio startProgressReporting; dsimp only; (repeat' split) <;> exact hu
  | onConnect => unfold onConnect; (repeat' split) <;> exact hu
  | gestureFired h => simp [gestureFired, doUnlockAudio, hu]
  | envMediaUpdate eid t d => unfold envMediaUpdate; (repeat' split) <;> exact hu

theorem step_ambientUnique {s s' : EngineState} {ev : List OutEvent}
    (h : Step s ev s') (hn : AmbientUnique s) : AmbientUnique s' := by
  cases h with
  | playAmbient id file v =>
      unfold playAmbient
      (repeat' split) <;> first
        | exact hn
        | exact nodup_mapKeys_mapSet _ _ hn
  | stopAmbient id =>
      unfold stopAmbient
      (repeat' split) <;> first
        | exact hn
        | exact nodup_mapKeys_mapDel _ hn
  | setAmbientVolume id v => unfold setAmbientVolume; (repeat' split) <;> exact hn
  | playPreset idx file => unfold playPreset; (repeat' split) <;> exact hn
  | pausePreset idx => unfold pausePreset; (repeat' split) <;> exact hn
  | seekPreset idx t => unfold seekPreset; (repeat' split) <;> exact hn
  | stopPreset idx => unfold stopPreset; (repeat' split) <;> exact hn
  | presetEnded idx eid h => exact hn
  | playTTS b64 mt => unfold playTTS; (repeat' split) <;> exact hn
  | ttsEnded h => exact hn
  | setIaVolume v => exact hn
  | setMasterVolume v => exact hn
  | stopAll => simp [stopAllOp, stopAllAudio, AmbientUnique, mapKeys]
  | progressTick h => exact hn
  | configureAudio p =>
      unfold configureAudio stopAllAudio stopProgressReporting addUnlockListeners
      dsimp only
      (repeat' split) <;> first
        | exact hn
        | simp [AmbientUnique, mapKeys]
  | unlockAudio =>
      unfold unlockAudio doUnlockAudio initAudioContext startProgressReporting
        removeUnlockListeners
      dsimp only
      (repeat' split) <;> exact hn
  | disableAudio => simp [disableAudio, stopAllAudio, stopProgressReporting,
      AmbientUnique, mapKeys]
  | enableAudio =>
      unfold enableAudio startProgressReporting
      dsimp only
      (repeat' split) <;> exact hn
  | onConnect => unfold onConnect; (repeat' split) <;> exact hn
  | gestureFired h =>
      unfold gestureFired doUnlockAudio initAudioContext startProgressReporting
        removeUnlockListeners
      dsimp only
      (repeat' split) <;> exact hn
  | envMediaUpdate eid t d => unfold envMediaUpdate; (repeat' split) <;> exact hn

/-- Every reachable state keeps at most one live ambient instance per id. -/
theorem reachable_ambientUnique {s : EngineState} (h : Reachable s) : AmbientUnique s := by
  induction h with
  | init => simp [AmbientUnique, initState, mapKeys]
  | step _ hstep ih => exact step_ambientUnique hstep ih

end Messagerie

/-! ### Characterization lemmas for the play handlers -/

namespace Messagerie

theorem length_ambientTeardown (s : EngineState) (id : String) :
    (ambientTeardown s id).length = s.heap.length := by
  unfold ambientTeardown
  split
  · exact length_releaseAt _ _
  · rfl

theorem length_ttsTeardown (s : EngineState) :
    (ttsTeardown s).length = s.heap.length := by
  unfold ttsTeardown
  split
  · exact length_releaseAt _ _
  · rfl

theorem playAmbient_eq (s : EngineState) (id file : String) (v : Option ℚ)
    (hu : s.audioUnlocked = true) (he : s.audioConfig.enabled = true) :
    playAmbient s id file v =
      ({ s with
          heap := ambientTeardown s id ++ [ambientElem s file v],
          ambientAudios := mapSet id (ambientTeardown s id).length s.ambientAudios }, []) := by
  unfold playAmbient
  simp [hu, he]

theorem playTTS_eq (s : EngineState) (b64 : String) (mt : Option String)
    (hu : s.audioUnlocked = true) (he : s.audioConfig.enabled = true) :
    playTTS s b64 mt =
      ({ s with
          heap := ttsTeardown s ++ [ttsElem s b64 mt],
          ttsAudio := some (ttsTeardown s).length }, []) := by
  unfold playTTS
  simp [hu, he]

end Messagerie

/-! ### Claim theorems -/

namespace Messagerie

/-- C1: with the gate open, `play-preset(idx, f)` on a slot holding a live
instance resumes that instance — its volume becomes the current `iaVolume`,
only `volume` and `paused` change (so the source and the current position,
including one set by an earlier seek, are preserved), and the file argument is
ignored; a new element built from `f` is created only when no live instance
exists at the slot. -/
theorem playPreset_resume_reuses_instance
    (s : EngineState) (idx : Nat) (f : String)
    (hu : s.audioUnlocked = true) (he : s.audioConfig.enabled = true) :
    (∀ eid a, mapGet idx s.presetAudios = some eid → s.heap[eid]? = some a →
      a.src ≠ "" →
      playPreset s idx f =
        ({ s with heap := s.heap.set eid { a with volume := s.iaVolume, paused := false } },
         [])) ∧
    (mapGet idx s.presetAudios = none →
      playPreset s idx f =
        ({ s with heap := s.heap ++ [presetElem s f],
                  presetAudios := mapSet idx s.heap.length s.presetAudios }, [])) := by
  constructor
  · intro eid a hm ha hsrc
    unfold playPreset
    simp [hu, he, hm, ha, hsrc]
  · intro hm
    unfold playPreset
    simp [hu, he, hm]

/-- Witness for C1: the spec scenario `play-preset(0,"a.mp3")` →
`pause-preset(0)` → `seek-preset(0,30)` → `play-preset(0,"b.mp3")` resumes at
position 30 with the original `a.mp3` source; `"b.mp3"` is nowhere in the
state. -/
theorem playPreset_resume_reuses_instance_witness :
    playPreset seekScenario 0 "b.mp3" =
      ({ seekScenario with heap :=
          [{ src := BACKOFFICE_URL ++ "/presets/a.mp3", volume := 1, loop := false,
             paused := false, currentTime := 30, duration := 0, routed := true }] }, []) := by
  have h := (playPreset_resume_reuses_instance seekScenario 0 "b.mp3"
      (by decide) (by decide)).1 0
    { src := BACKOFFICE_URL ++ "/presets/a.mp3", volume := 1, loop := false,
      paused := true, currentTime := 30, duration := 0, routed := true }
    (by decide) (by decide) (by decide)
  rw [h]
  decide

end Messagerie

namespace Messagerie

/-- C2: when the gate is closed (not yet unlocked, or audio disabled) the
three play operations are complete no-ops — same state, no events — while the
stop/pause/seek/volume/stop-all operations are entirely insensitive to the two
gate flags: running them under any flag values gives the same state change
(up to those flags) and the same events. -/
theorem gate_blocks_play_only
    (s : EngineState) (u e : Bool) (id f : String) (v : Option ℚ) (vq t : ℚ)
    (idx : Nat) (b64 : String) (mt : Option String)
    (hg : s.audioUnlocked = false ∨ s.audioConfig.enabled = false) :
    playAmbient s id f v = (s, []) ∧
    playPreset s idx f = (s, []) ∧
    playTTS s b64 mt = (s, []) ∧
    stopAmbient (withGate s u e) id =
      (withGate (stopAmbient s id).1 u e, (stopAmbient s id).2) ∧
    stopPreset (withGate s u e) idx =
      (withGate (stopPreset s idx).1 u e, (stopPreset s idx).2) ∧
    pausePreset (withGate s u e) idx =
      (withGate (pausePreset s idx).1 u e, (pausePreset s idx).2) ∧
    seekPreset (withGate s u e) idx t =
      (withGate (seekPreset s idx t).1 u e, (seekPreset s idx t).2) ∧
    setAmbientVolume (withGate s u e) id vq =
      (withGate (setAmbientVolume s id vq).1 u e, (setAmbientVolume s id vq).2) ∧
    setIaVolume (withGate s u e) vq =
      (withGate (setIaVolume s vq).1 u e, (setIaVolume s vq).2) ∧
    setMasterVolume (withGate s u e) vq =
      (withGate (setMasterVolume s vq).1 u e, (setMasterVolume s vq).2) ∧
    stopAllOp (withGate s u e) = (withGate (stopAllOp s).1 u e, (stopAllOp s).2) := by
  have hgate : (!s.audioUnlocked || !s.audioConfig.enabled) = true := by
    rcases hg with h | h <;> simp [h]
  refine ⟨?_, ?_, ?_, ?_, ?_, ?_, ?_, ?_, ?_, ?_, ?_⟩
  · unfold playAmbient; simp [hgate]
  · unfold playPreset; simp [hgate]
  · unfold playTTS; simp [hgate]
  · cases hm : mapGet id s.ambientAudios <;>
      simp [stopAmbient, withGate, releaseAt, hm]
  · cases hm : mapGet idx s.presetAudios <;>
      simp [stopPreset, withGate, releaseAt, hm]
  · cases hm : mapGet idx s.presetAudios with
    | none => simp [pausePreset, withGate, hm]
    | some eid => cases ha : s.heap[eid]? <;> simp [pausePreset, withGate, hm, ha]
  · cases hm : mapGet idx s.presetAudios with
    | none => simp [seekPreset, withGate, hm]
    | some eid => cases ha : s.heap[eid]? <;> simp [seekPreset, withGate, hm, ha]
  · cases hm : mapGet id s.ambientAudios <;>
      simp [setAmbientVolume, withGate, setVolAt, hm]
  · cases htts : s.ttsAudio <;> simp [setIaVolume, withGate, htts]
  · simp [setMasterVolume, withGate]
  · simp [stopAllOp, stopAllAudio, withGate]

/-- Witness for C2: from the locked sample state, `play-ambient` is a no-op
while `stop-ambient` still removes the live "bg" instance. -/
theorem gate_blocks_play_only_witness :
    playAmbient sampleLocked "bg" "x.mp3" none = (sampleLocked, []) ∧
    stopAmbient (withGate sampleLocked false true) "bg" =
      (withGate (stopAmbient sampleLocked "bg").1 false true,
       (stopAmbient sampleLocked "bg").2) ∧
    (stopAmbient sampleLocked "bg").1.ambientAudios = [] := by
  have h := gate_blocks_play_only sampleLocked false true "bg" "x.mp3" none (1/2) 7
    0 "payload" none (Or.inl rfl)
  exact ⟨h.1, h.2.2.2.1, by decide⟩

end Messagerie

namespace Messagerie

/-- C3: two `play-ambient` commands for the same id (gate open) leave exactly
one live instance under the id — the second-created element — with the
first-created element fully torn down in the final heap (paused, source
released); and every reachable state keeps at most one live ambient instance
per id. -/
theorem playAmbient_twice_unique
    (s : EngineState) (id f1 f2 : String) (v1 v2 : Option ℚ)
    (hu : s.audioUnlocked = true) (he : s.audioConfig.enabled = true)
    (hn : AmbientUnique s) :
    mapGet id ((playAmbient (playAmbient s id f1 v1).1 id f2 v2).1).ambientAudios
        = some (s.heap.length + 1) ∧
    (mapKeys ((playAmbient (playAmbient s id f1 v1).1 id f2 v2).1).ambientAudios).count id
        = 1 ∧
    ((playAmbient (playAmbient s id f1 v1).1 id f2 v2).1).heap[s.heap.length]?
        = some (released (ambientElem s f1 v1)) ∧
    (∀ r, Reachable r → AmbientUnique r) := by
  have hL : (ambientTeardown s id).length = s.heap.length := length_ambientTeardown s id
  have hs1 := playAmbient_eq s id f1 v1 hu he
  have hu1 : (playAmbient s id f1 v1).1.audioUnlocked = true := by rw [hs1]; exact hu
  have he1 : (playAmbient s id f1 v1).1.audioConfig.enabled = true := by rw [hs1]; exact he
  have hs2 := playAmbient_eq (playAmbient s id f1 v1).1 id f2 v2 hu1 he1
  have hm1 : mapGet id (playAmbient s id f1 v1).1.ambientAudios = some s.heap.length := by
    rw [hs1]
    show mapGet id (mapSet id (ambientTeardown s id).length s.ambientAudios) = _
    rw [mapGet_mapSet_self, hL]
  have hlen1 : (playAmbient s id f1 v1).1.heap.length = s.heap.length + 1 := by
    rw [hs1]
    show (ambientTeardown s id ++ [ambientElem s f1 v1]).length = _
    simp [hL]
  have htd1 : ambientTeardown (playAmbient s id f1 v1).1 id
      = releaseAt (playAmbient s id f1 v1).1.heap s.heap.length := by
    unfold ambientTeardown
    rw [hm1]
  have hg1 : mapGet id ((playAmbient (playAmbient s id f1 v1).1 id f2 v2).1).ambientAudios
      = some (s.heap.length + 1) := by
    rw [hs2]
    show mapGet id (mapSet id (ambientTeardown (playAmbient s id f1 v1).1 id).length
      (playAmbient s id f1 v1).1.ambientAudios) = _
    rw [mapGet_mapSet_self, htd1, length_releaseAt, hlen1]
  have hnu2 : AmbientUnique (playAmbient (playAmbient s id f1 v1).1 id f2 v2).1 := by
    rw [hs2]
    show (mapKeys (mapSet id _ (playAmbient s id f1 v1).1.ambientAudios)).Nodup
    apply nodup_mapKeys_mapSet
    rw [hs1]
    show (mapKeys (mapSet id _ s.ambientAudios)).Nodup
    exact nodup_mapKeys_mapSet _ _ hn
  refine ⟨hg1, count_mapKeys_eq_one hnu2 hg1, ?_, fun r hr => reachable_ambientUnique hr⟩
  have hheap1 : (playAmbient s id f1 v1).1.heap[s.heap.length]?
      = some (ambientElem s f1 v1) := by
    rw [hs1]
    show (ambientTeardown s id ++ [ambientElem s f1 v1])[s.heap.length]? = _
    rw [← hL]
    exact List.getElem?_concat_length _ _
  rw [hs2]
  show (ambientTeardown (playAmbient s id f1 v1).1 id
      ++ [ambientElem (playAmbient s id f1 v1).1 f2 v2])[s.heap.length]? = _
  rw [htd1]
  rw [List.getElem?_append_left (by rw [length_releaseAt, hlen1]; omega)]
  rw [getElem?_releaseAt_self, hheap1]
  rfl

/-- Witness for C3: two `play-ambient("bg", ...)` calls on the sample state
leave the live entry at the freshly created element 4, with element 3 (the
first replacement) paused and its source cleared; and the initial state
trivially satisfies the per-id uniqueness invariant. -/
theorem playAmbient_twice_unique_witness :
    mapGet "bg" ((playAmbient (playAmbient sampleState "bg" "x.mp3" none).1
        "bg" "y.mp3" none).1).ambientAudios = some 4 ∧
    (mapKeys ((playAmbient (playAmbient sampleState "bg" "x.mp3" none).1
        "bg" "y.mp3" none).1).ambientAudios).count "bg" = 1 ∧
    ((playAmbient (playAmbient sampleState "bg" "x.mp3" none).1
        "bg" "y.mp3" none).1).heap[3]? = some (released (ambientElem sampleState "x.mp3" none)) ∧
    AmbientUnique initState := by
  have h := playAmbient_twice_unique sampleState "bg" "x.mp3" "y.mp3" none none
    rfl rfl (by unfold AmbientUnique; decide)
  exact ⟨h.1, h.2.1, h.2.2.1, h.2.2.2 initState Reachable.init⟩

end Messagerie

namespace Messagerie

/-- C4: the end-of-clip handler of a live preset emits exactly one progress
event, carrying `ended:true` with current time equal to the element's total
duration, and afterwards the slot is absent from the live preset map. -/
theorem presetEnded_terminal_report_then_absent
    (s : EngineState) (idx eid : Nat) (a : Audio)
    (hm : mapGet idx s.presetAudios = some eid)
    (ha : s.heap[eid]? = some a)
    (hn : (mapKeys s.presetAudios).Nodup) :
    presetEnded s idx eid =
      ({ s with presetAudios := mapDel idx s.presetAudios },
       [OutEvent.presetProgress idx a.duration a.duration true]) ∧
    mapGet idx (presetEnded s idx eid).1.presetAudios = none := by
  constructor
  · unfold presetEnded
    rw [ha]
  · show mapGet idx (mapDel idx s.presetAudios) = none
    exact mapGet_mapDel_self idx hn

/-- Witness for C4: the sample preset at slot 0 (duration 120) ends: one
terminal event `{presetIdx := 0, currentTime := 120, duration := 120,
ended := true}` and the slot becomes absent. -/
theorem presetEnded_terminal_report_then_absent_witness :
    presetEnded sampleState 0 1 =
      ({ sampleState with presetAudios := [] },
       [OutEvent.presetProgress 0 120 120 true]) ∧
    mapGet 0 (presetEnded sampleState 0 1).1.presetAudios = none := by
  have h := presetEnded_terminal_report_then_absent sampleState 0 1
    { src := BACKOFFICE_URL ++ "/presets/p.mp3", volume := 1, loop := false,
      paused := false, currentTime := 12, duration := 120, routed := true }
    (by decide) (by decide) (by decide)
  refine ⟨?_, h.2⟩
  rw [h.1]
  decide

end Messagerie

namespace SocketRegistry

theorem countHandlers_socketOff_self (name : String) (r : Registry) :
    countHandlers name (socketOff name r) = 0 := by
  unfold countHandlers socketOff
  induction r with
  | nil => rfl
  | cons p rest ih =>
    by_cases hp : p.1 = name
    · simp [List.filter_cons, hp, ih]
    · simp [List.filter_cons, hp, ih]

theorem countHandlers_socketOn_self (name : String) (h : Nat) (r : Registry) :
    countHandlers name (socketOn name h r) = countHandlers name r + 1 := by
  simp [countHandlers, socketOn, List.filter_append]

/-- C5 counterexample: the `audio:*` registrations are plain `socket.on` calls
with no preceding `socket.off`, so invoking the dispatcher's registration a
second time leaves two subscriptions for `audio:play-ambient` — a delivered
event would then run its handler twice, not once. -/
theorem setupAudio_reregistration_duplicates :
    countHandlers "audio:play-ambient"
      (setupAudioEventListeners (setupAudioEventListeners [] 0) 11) = 2 := by
  decide

/-- C5 (amended): re-registration replaces the previous subscription only for
the `command` event — `gamemaster.onCommand` removes the old listener before
subscribing, so after any number of re-registrations exactly one handler
fires; the `audio:*` registrations of `setupAudioEventListeners` append
without removing, but the source invokes that function exactly once (at module
load), after which each audio event name has exactly one handler. -/
theorem onCommand_replaces_audio_setup_single
    (r : Registry) (h1 h2 : Nat) :
    countHandlers "command" (onCommand (onCommand r h1) h2) = 1 ∧
    (countHandlers "audio:play-ambient" (setupAudioEventListeners [] 0) = 1 ∧
     countHandlers "audio:stop-ambient" (setupAudioEventListeners [] 0) = 1 ∧
     countHandlers "audio:volume-ambient" (setupAudioEventListeners [] 0) = 1 ∧
     countHandlers "audio:play-preset" (setupAudioEventListeners [] 0) = 1 ∧
     countHandlers "audio:pause-preset" (setupAudioEventListeners [] 0) = 1 ∧
     countHandlers "audio:seek-preset" (setupAudioEventListeners [] 0) = 1 ∧
     countHandlers "audio:stop-preset" (setupAudioEventListeners [] 0) = 1 ∧
     countHandlers "audio:play-tts" (setupAudioEventListeners [] 0) = 1 ∧
     countHandlers "audio:volume-ia" (setupAudioEventListeners [] 0) = 1 ∧
     countHandlers "audio:master-volume" (setupAudioEventListeners [] 0) = 1 ∧
     countHandlers "audio:stop-all" (setupAudioEventListeners [] 0) = 1) := by
  constructor
  · rw [onCommand, countHandlers_socketOn_self, countHandlers_socketOff_self]
  · decide

end SocketRegistry

namespace Messagerie

/-- C6: `audio:master-volume` stores the value, emits nothing, writes the
shared gain immediately when the routing graph exists, leaves the gain alone
when it does not — in which case the stored value becomes the initial gain
once the graph is created — and never touches any element's stored volume
(the whole heap is unchanged). -/
theorem setMasterVolume_spec (s : EngineState) (v : ℚ) :
    (setMasterVolume s v).1.masterVolume = v ∧
    (setMasterVolume s v).2 = [] ∧
    (s.audioCtxExists = true → (setMasterVolume s v).1.masterGainValue = v) ∧
    (s.audioCtxExists = false →
      (setMasterVolume s v).1.masterGainValue = s.masterGainValue ∧
      (initAudioContext (setMasterVolume s v).1).masterGainValue = v ∧
      (initAudioContext (setMasterVolume s v).1).audioCtxExists = true) ∧
    (setMasterVolume s v).1.heap = s.heap := by
  refine ⟨rfl, rfl, ?_, ?_, rfl⟩
  · intro h
    show (if s.audioCtxExists then v else s.masterGainValue) = v
    rw [h]
    rfl
  · intro h
    refine ⟨?_, ?_, ?_⟩
    · show (if s.audioCtxExists then v else s.masterGainValue) = s.masterGainValue
      rw [h]
      rfl
    · unfold initAudioContext setMasterVolume
      simp [h]
    · unfold initAudioContext setMasterVolume
      simp [h]

/-- Witness for C6: with the routing graph present (sample state) the gain is
written immediately; without it (initial state) the gain stays, and creating
the graph afterwards applies the stored value 7. -/
theorem setMasterVolume_spec_witness :
    (setMasterVolume sampleState 7).1.masterVolume = 7 ∧
    (setMasterVolume sampleState 7).1.masterGainValue = 7 ∧
    (setMasterVolume initState 7).1.masterGainValue = 1 ∧
    (initAudioContext (setMasterVolume initState 7).1).masterGainValue = 7 ∧
    (setMasterVolume initState 7).1.heap = initState.heap := by
  have ha := setMasterVolume_spec sampleState 7
  have hb := setMasterVolume_spec initState 7
  exact ⟨ha.1, ha.2.2.1 rfl, (hb.2.2.2.1 rfl).1, (hb.2.2.2.1 rfl).2.1, hb.2.2.2.2⟩

end Messagerie

namespace Messagerie

/-- C7: `audio:volume-ia` stores the level, emits nothing, pushes the new
volume onto every live preset element and onto the TTS element if present,
and leaves every live ambient element (one that is neither a preset element
nor the TTS element — distinct objects in the source) untouched. -/
theorem setIaVolume_spec (s : EngineState) (v : ℚ) :
    (setIaVolume s v).1.iaVolume = v ∧
    (setIaVolume s v).2 = [] ∧
    (∀ eid, eid ∈ mapVals s.presetAudios →
      (setIaVolume s v).1.heap[eid]? = (s.heap[eid]?).map (setVol v)) ∧
    (∀ eid, s.ttsAudio = some eid →
      (setIaVolume s v).1.heap[eid]? = (s.heap[eid]?).map (setVol v)) ∧
    (∀ id eid, mapGet id s.ambientAudios = some eid →
      eid ∉ mapVals s.presetAudios → s.ttsAudio ≠ some eid →
      (setIaVolume s v).1.heap[eid]? = s.heap[eid]?) := by
  have hh : (setIaVolume s v).1.heap =
      (match s.ttsAudio with
       | some e => setVolAt v (setVolAll s.heap v (mapVals s.presetAudios)) e
       | none => setVolAll s.heap v (mapVals s.presetAudios)) := rfl
  refine ⟨rfl, rfl, ?_, ?_, ?_⟩
  · intro eid hmem
    cases htts : s.ttsAudio with
    | none =>
        rw [hh, htts, getElem?_setVolAll]
        simp [hmem]
    | some e2 =>
        by_cases he2 : eid = e2
        · subst he2
          rw [hh, htts, getElem?_setVolAt_self, getElem?_setVolAll]
          simp [hmem, Option.map_map, Function.comp_def, setVol_setVol]
        · rw [hh, htts, getElem?_setVolAt_ne v _ he2, getElem?_setVolAll]
          simp [hmem]
  · intro eid htts
    rw [hh, htts, getElem?_setVolAt_self, getElem?_setVolAll]
    by_cases hmem : eid ∈ mapVals s.presetAudios
    · simp [hmem, Option.map_map, Function.comp_def, setVol_setVol]
    · simp [hmem]
  · intro id eid hamb hnp hnt
    cases htts : s.ttsAudio with
    | none =>
        rw [hh, htts, getElem?_setVolAll]
        simp [hnp]
    | some e2 =>
        have hne : eid ≠ e2 := fun hEq => hnt (by rw [htts, hEq])
        rw [hh, htts, getElem?_setVolAt_ne v _ hne, getElem?_setVolAll]
        simp [hnp]

/-- Witness for C7: setting the IA level to 3 on the sample state retunes the
preset element 1 and the TTS element 2 but not the live ambient element 0. -/
theorem setIaVolume_spec_witness :
    (setIaVolume sampleState 3).1.iaVolume = 3 ∧
    (setIaVolume sampleState 3).1.heap[1]? = (sampleState.heap[1]?).map (setVol 3) ∧
    (setIaVolume sampleState 3).1.heap[2]? = (sampleState.heap[2]?).map (setVol 3) ∧
    (setIaVolume sampleState 3).1.heap[0]? = sampleState.heap[0]? := by
  have h := setIaVolume_spec sampleState 3
  exact ⟨h.1, h.2.2.1 1 (by decide), h.2.2.2.1 2 rfl,
    h.2.2.2.2 "bg" 0 (by decide) (by decide) (by decide)⟩

end Messagerie

namespace Messagerie

/-- C8: `unlock` is idempotent and the flag is monotonic: it is a strict no-op
when already unlocked or when audio is disabled; a first successful unlock
flips the flag to true, emits exactly `register-audio-player`, starts the
progress reporter and detaches the gesture watch; and no step of the engine
ever takes the flag from true back to false. -/
theorem unlock_idempotent_monotonic
    (s t u : EngineState) (ev : List OutEvent) :
    (s.audioUnlocked = true ∨ s.audioConfig.enabled = false →
      doUnlockAudio s = (s, [])) ∧
    (s.audioUnlocked = false → s.audioConfig.enabled = true →
      (doUnlockAudio s).1.audioUnlocked = true ∧
      (doUnlockAudio s).2 = [OutEvent.registerAudioPlayer] ∧
      (doUnlockAudio s).1.progressRunning = true ∧
      (doUnlockAudio s).1.gestureListeners = false) ∧
    (Step t ev u → t.audioUnlocked = true → u.audioUnlocked = true) := by
  refine ⟨?_, ?_, fun hst hu => step_unlocked_mono hst hu⟩
  · intro h
    unfold doUnlockAudio
    rcases h with h | h <;> simp [h]
  · intro h1 h2
    unfold doUnlockAudio initAudioContext startProgressReporting removeUnlockListeners
    dsimp only
    simp only [h1, h2]
    (repeat' split) <;> simp_all

/-- Witness for C8: unlocking the already-unlocked sample state is a no-op;
unlocking the fresh initial state flips the flag, emits the registration
event, starts the reporter and detaches the watch; and the `stop-ambient`
step out of the sample state preserves the unlocked flag. -/
theorem unlock_idempotent_monotonic_witness :
    doUnlockAudio sampleState = (sampleState, []) ∧
    (doUnlockAudio initState).1.audioUnlocked = true ∧
    (doUnlockAudio initState).2 = [OutEvent.registerAudioPlayer] ∧
    (doUnlockAudio initState).1.progressRunning = true ∧
    (doUnlockAudio initState).1.gestureListeners = false ∧
    (stopAmbient sampleState "bg").1.audioUnlocked = true := by
  have ha := (unlock_idempotent_monotonic sampleState sampleState
    (stopAmbient sampleState "bg").1 (stopAmbient sampleState "bg").2).1
    (Or.inl rfl)
  have hb := ((unlock_idempotent_monotonic initState sampleState
    (stopAmbient sampleState "bg").1 (stopAmbient sampleState "bg").2).2.1) rfl rfl
  have hc := (unlock_idempotent_monotonic initState sampleState
    (stopAmbient sampleState "bg").1 (stopAmbient sampleState "bg").2).2.2
    (Step.stopAmbient sampleState "bg") rfl
  exact ⟨ha, hb.1, hb.2.1, hb.2.2.1, hb.2.2.2, hc⟩

end Messagerie

namespace ElevenLabs

/-- C9: once a call has cached a (truthy) voice id, every later call returns
that id — whatever name it asks for and whatever the `/voices` endpoint would
now answer — without issuing a request. -/
theorem getVoiceIdByName_cache_ignores_name
    (nameA nameB : String) (fr fr' : Option (List Voice)) (id : String)
    (hc : (getVoiceIdByName nameA none fr).cache = some id)
    (hne : id ≠ "") :
    getVoiceIdByName nameB ((getVoiceIdByName nameA none fr).cache) fr' =
      { result := some id, cache := some id, requested := false } := by
  rw [hc]
  unfold getVoiceIdByName
  simp [hne]

/-- Witness for C9: after looking up "rachel" against a directory holding
voice "Rachel" (id "v1"), a later call asking for the different name "Bella"
returns "v1" from the cache without any request, even though the directory
now answers with an unrelated voice. -/
theorem getVoiceIdByName_cache_ignores_name_witness :
    getVoiceIdByName "Bella"
        ((getVoiceIdByName "rachel" none (some [{ voice_id := "v1", name := "Rachel" }])).cache)
        (some [{ voice_id := "v2", name := "Bella" }]) =
      { result := some "v1", cache := some "v1", requested := false } :=
  getVoiceIdByName_cache_ignores_name "rachel" "Bella"
    (some [{ voice_id := "v1", name := "Rachel" }])
    (some [{ voice_id := "v2", name := "Bella" }]) "v1" (by decide) (by decide)

end ElevenLabs

namespace Messagerie

theorem getElem?_stopAllAudio (s : EngineState) (eid : Nat) :
    (stopAllAudio s).heap[eid]? =
      if eid ∈ mapVals s.ambientAudios ∨ eid ∈ mapVals s.presetAudios
          ∨ s.ttsAudio = some eid
      then (s.heap[eid]?).map released
      else s.heap[eid]? := by
  unfold stopAllAudio
  dsimp only
  cases htts : s.ttsAudio with
  | none =>
      rw [getElem?_releaseAll, getElem?_releaseAll]
      by_cases h1 : eid ∈ mapVals s.ambientAudios <;>
        by_cases h2 : eid ∈ mapVals s.presetAudios <;>
          simp [h1, h2, Option.map_map, Function.comp_def, released_released]
  | some e2 =>
      by_cases he : eid = e2
      · subst he
        rw [getElem?_releaseAt_self, getElem?_releaseAll, getElem?_releaseAll]
        by_cases h1 : eid ∈ mapVals s.ambientAudios <;>
          by_cases h2 : eid ∈ mapVals s.presetAudios <;>
            simp [h1, h2, Option.map_map, Function.comp_def, released_released]
      · rw [getElem?_releaseAt_ne _ he, getElem?_releaseAll, getElem?_releaseAll]
        by_cases h1 : eid ∈ mapVals s.ambientAudios <;>
          by_cases h2 : eid ∈ mapVals s.presetAudios <;>
            simp [h1, h2, he, Ne.symm he, Option.map_map, Function.comp_def,
              released_released]

/-- C10: `configureAudio` reads the attach condition off the partial update
alone — the gesture watch is armed exactly when the partial carries
`enabled: true` and its own `autoUnlock` is not `false` (so `{enabled: true}`
re-arms even when the stored config has `autoUnlock := false`) — and a partial
with `enabled: false` additionally stops all live audio (both maps emptied,
the TTS slot cleared, every live element released) and stops the progress
reporter. -/
theorem configureAudio_partial_decides
    (s : EngineState) (p : PartialAudioConfig) :
    ((configureAudio s p).1.gestureListeners =
      if p.enabled = some true ∧ p.autoUnlock ≠ some false then true
      else s.gestureListeners) ∧
    ((configureAudio
        { s with audioConfig := { s.audioConfig with autoUnlock := false } }
        { enabled := some true }).1.gestureListeners = true) ∧
    (p.enabled = some false →
      (configureAudio s p).1.ambientAudios = [] ∧
      (configureAudio s p).1.presetAudios = [] ∧
      (configureAudio s p).1.ttsAudio = none ∧
      (configureAudio s p).1.progressRunning = false ∧
      (∀ eid, eid ∈ mapVals s.ambientAudios ∨ eid ∈ mapVals s.presetAudios
          ∨ s.ttsAudio = some eid →
        (configureAudio s p).1.heap[eid]? = (s.heap[eid]?).map released)) := by
  refine ⟨?_, ?_, ?_⟩
  · unfold configureAudio addUnlockListeners stopAllAudio stopProgressReporting
    dsimp only
    (repeat' split) <;> simp_all
  · unfold configureAudio addUnlockListeners
    dsimp only
    simp
  · intro hpe
    have hne : ¬(p.enabled = some true ∧ p.autoUnlock ≠ some false) := by
      simp [hpe]
    have hstep : (configureAudio s p).1 =
        stopProgressReporting (stopAllAudio { s with audioConfig :=
          { enabled := false,
            autoUnlock := p.autoUnlock.getD s.audioConfig.autoUnlock,
            debug := p.debug.getD s.audioConfig.debug } }) := by
      unfold configureAudio
      dsimp only
      rw [hpe]
      simp [hne, hpe]
    refine ⟨?_, ?_, ?_, ?_, ?_⟩
    · rw [hstep]; rfl
    · rw [hstep]; rfl
    · rw [hstep]; rfl
    · rw [hstep]; rfl
    · intro eid hmem
      rw [hstep]
      show (stopAllAudio _).heap[eid]? = _
      rw [getElem?_stopAllAudio]
      simp only []
      simp [hmem]

/-- Witness for C10: `configureAudio {enabled := true}` re-arms the gesture
watch although the stored config has `autoUnlock := false`; and
`configureAudio {enabled := false}` on the sample state clears the maps,
stops the reporter and releases the live ambient element. -/
theorem configureAudio_partial_decides_witness :
    (configureAudio
        { sampleState with audioConfig := { sampleState.audioConfig with autoUnlock := false } }
        { enabled := some true }).1.gestureListeners = true ∧
    (configureAudio sampleState { enabled := some false }).1.ambientAudios = [] ∧
    (configureAudio sampleState { enabled := some false }).1.progressRunning = false ∧
    (configureAudio sampleState { enabled := some false }).1.heap[0]? =
      (sampleState.heap[0]?).map released := by
  have h := configureAudio_partial_decides sampleState { enabled := some false }
  exact ⟨h.2.1, (h.2.2 rfl).1, (h.2.2 rfl).2.2.2.1,
    (h.2.2 rfl).2.2.2.2 0 (Or.inl (by decide))⟩

end Messagerie
